import Mathlib

/-!
Verification of the jacuzzi temperature-monitoring repository.

The definitions below are a shallow embedding of the Go source:
* `pkg/client/monitor/temperature.go` (sensor scanning and classification),
* `cmd/client/client.go` (the poll cycle's type filter and batch assembly),
* the server's `TemperatureService` (batch ingestion with host/sensor
  upserts, history / current / stats queries, GORM over a relational store).

Machine integers are modelled as `Nat`/`Int`, Go `float64` temperatures as
`ℚ`, timestamps as `Nat` (Go's zero `time.Time` is `0`), and the database
as in-memory lists of rows.  Fallible RPCs return `Except GrpcCode`.
-/

set_option autoImplicit false

namespace Jacuzzi

/-! ### ASCII models of the Go standard-library string functions used by the source -/

/-- Model of Go `strings.ToLower` on one character (ASCII range, which is all
the source's substring patterns use). -/
def goToLower (c : Char) : Char :=
  if 'A' ≤ c ∧ c ≤ 'Z' then Char.ofNat (c.toNat + 32) else c

/-- Model of Go `strings.ToLower`, as a character list. -/
def lowerStr (s : String) : List Char :=
  s.data.map goToLower

/-- Whether `pat` is a leading segment of `l` (helper for substring search). -/
def startsWithL : List Char → List Char → Bool
  | [], _ => true
  | _ :: _, [] => false
  | a :: as, b :: bs => a = b && startsWithL as bs

/-- Model of Go `strings.Contains`: `pat` occurs contiguously inside `l`. -/
def containsSub (pat : List Char) : List Char → Bool
  | [] => startsWithL pat []
  | c :: t => startsWithL pat (c :: t) || containsSub pat t

/-- Go `unicode.IsSpace` restricted to the ASCII white-space characters. -/
def isGoSpace (c : Char) : Bool :=
  c = ' ' || c = '\t' || c = '\n' || c = '\x0b' || c = '\x0c' || c = '\r'

/-- Model of Go `strings.TrimSpace` (ASCII white space). -/
def goTrimSpace (s : String) : String :=
  String.mk (((s.data.dropWhile isGoSpace).reverse.dropWhile isGoSpace).reverse)

/-- Model of Go `strings.Split(s, sep)` for a one-character separator. -/
def goSplitOn (sep : Char) : List Char → List (List Char)
  | [] => [[]]
  | c :: t =>
    match goSplitOn sep t with
    | [] => [[]]
    | h :: r => if c = sep then [] :: h :: r else (c :: h) :: r

/-- Model of Go `strings.TrimPrefix(s, pat)`. -/
def goTrimHead (pat : List Char) (l : List Char) : List Char :=
  if startsWithL pat l then l.drop pat.length else l

/-- Decimal value of a digit string; `none` when empty or containing a
non-digit (the error cases of Go's integer parser for base 10). -/
def digitsVal (l : List Char) : Option Nat :=
  if l = [] then none
  else l.foldl (fun acc c =>
    acc.bind (fun n => if c.isDigit then some (n * 10 + (c.toNat - 48)) else none)) (some 0)

/-- Model of Go `strconv.ParseInt(s, 10, 64)`: optional sign, non-empty digit
string, error (`none`) on any other character or on int64 overflow. -/
def goParseInt64 (s : String) : Option Int :=
  match s.data with
  | '+' :: t => (digitsVal t).bind (fun n =>
      if n ≤ 9223372036854775807 then some (n : Int) else none)
  | '-' :: t => (digitsVal t).bind (fun n =>
      if n ≤ 9223372036854775808 then some (-(n : Int)) else none)
  | t => (digitsVal t).bind (fun n =>
      if n ≤ 9223372036854775807 then some (n : Int) else none)

/-! ### Sensor classification (`readHwmonDevice`, temperature.go lines 102-112) -/

/-- First classification rule of `readHwmonDevice`: label contains "cpu" or
device name contains "coretemp". -/
def cpuRule (label deviceName : String) : Bool :=
  containsSub "cpu".data (lowerStr label) || containsSub "coretemp".data (lowerStr deviceName)

/-- Second classification rule: label contains "gpu" or device name contains
"amdgpu" or "nvidia". -/
def gpuRule (label deviceName : String) : Bool :=
  containsSub "gpu".data (lowerStr label) || containsSub "amdgpu".data (lowerStr deviceName)
    || containsSub "nvidia".data (lowerStr deviceName)

/-- Third classification rule: label or device name contains "nvme". -/
def diskRule (label deviceName : String) : Bool :=
  containsSub "nvme".data (lowerStr label) || containsSub "nvme".data (lowerStr deviceName)

/-- The sensor-type classification of `readHwmonDevice`: the `sensorType`
if/else chain, defaulting to "OTHER". -/
def classifySensor (label deviceName : String) : String :=
  if cpuRule label deviceName then "CPU"
  else if gpuRule label deviceName then "GPU"
  else if diskRule label deviceName then "DISK"
  else "OTHER"

/-- C5: classification is a pure function of `(label, deviceName)`, evaluated
as an ordered case-insensitive substring rule list with first match winning:
"cpu" in label or "coretemp" in device gives CPU; else "gpu" in label or
"amdgpu"/"nvidia" in device gives GPU; else "nvme" in label or device gives
DISK; else OTHER.  In particular `("Package id 0", "coretemp")` gives CPU,
`("nvme Composite", "nvme0")` gives DISK and `("", "unknownchip")` gives
OTHER. -/
theorem c5_classification_rules :
    (∀ label deviceName : String,
      (classifySensor label deviceName = "CPU" ↔ cpuRule label deviceName = true) ∧
      (classifySensor label deviceName = "GPU" ↔
        (cpuRule label deviceName = false ∧ gpuRule label deviceName = true)) ∧
      (classifySensor label deviceName = "DISK" ↔
        (cpuRule label deviceName = false ∧ gpuRule label deviceName = false ∧
          diskRule label deviceName = true)) ∧
      (classifySensor label deviceName = "OTHER" ↔
        (cpuRule label deviceName = false ∧ gpuRule label deviceName = false ∧
          diskRule label deviceName = false))) ∧
    classifySensor "Package id 0" "coretemp" = "CPU" ∧
    classifySensor "nvme Composite" "nvme0" = "DISK" ∧
    classifySensor "" "unknownchip" = "OTHER" := by
  refine ⟨fun label deviceName => ?_, by decide, by decide, by decide⟩
  unfold classifySensor
  rcases h1 : cpuRule label deviceName <;>
    rcases h2 : gpuRule label deviceName <;>
      rcases h3 : diskRule label deviceName <;> simp

/-! ### Hwmon scanning (`readHwmonDevice`, temperature.go lines 60-124) -/

/-- One agent-side sensor sample (`TemperatureSensor` in temperature.go). -/
structure TemperatureSensor where
  id : String
  type : String
  name : String
  tempMilliC : Int
deriving DecidableEq, Repr

/-- One `temp*_input` channel of a hwmon directory as the scanner sees it:
the file's base name, the optional contents of the input file (`none` models
a read error) and the optional contents of the matching `temp*_label` file. -/
structure HwmonChannel where
  base : String
  raw : Option String
  label : Option String
deriving DecidableEq, Repr

/-- The device name used by `readHwmonDevice`: the trimmed contents of the
`name` file, defaulting to "Unknown" when that file is unreadable. -/
def resolveDeviceName (nameFile : Option String) : String :=
  match nameFile with
  | some d => goTrimSpace d
  | none => "Unknown"

/-- One iteration of the `readHwmonDevice` channel loop: `none` models a
`continue` (malformed file name, unreadable value, or unparseable value),
`some` the sample appended for a valid channel. -/
def processChannel (deviceName hwmonBase : String) (ch : HwmonChannel) : Option TemperatureSensor :=
  if (goSplitOn '_' ch.base.data).length < 2 then none
  else
    let sensorNum := String.mk (goTrimHead "temp".data (goSplitOn '_' ch.base.data).headI)
    match ch.raw with
    | none => none
    | some data =>
      match goParseInt64 (goTrimSpace data) with
      | none => none
      | some v =>
        let label :=
          match ch.label with
          | some d => goTrimSpace d
          | none => deviceName ++ "_temp" ++ sensorNum
        some { id := hwmonBase ++ "_" ++ sensorNum
             , type := classifySensor label deviceName
             , name := label
             , tempMilliC := v }

/-- Accumulator step shared by the scanning loops: skip on `none` (the Go
`continue`), append the produced sample otherwise. -/
def skipFold {α β : Type} (f : α → Option β) (acc : List β) (x : α) : List β :=
  match f x with
  | none => acc
  | some s => acc ++ [s]

/-- The channel loop of `readHwmonDevice`, accumulating samples and skipping
channels on any per-channel error. -/
def readHwmonDevice (nameFile : Option String) (hwmonBase : String)
    (channels : List HwmonChannel) : List TemperatureSensor :=
  let deviceName := resolveDeviceName nameFile
  channels.foldl (skipFold (processChannel deviceName hwmonBase)) []

/-- A channel is valid when its input file is readable and its trimmed
contents parse as a base-10 integer. -/
def channelValid (ch : HwmonChannel) : Bool :=
  match ch.raw with
  | none => false
  | some data => (goParseInt64 (goTrimSpace data)).isSome

theorem goSplitOn_ne_nil (sep : Char) (l : List Char) : goSplitOn sep l ≠ [] := by
  cases l with
  | nil => simp [goSplitOn]
  | cons c t =>
    unfold goSplitOn
    cases h : goSplitOn sep t with
    | nil => simp
    | cons hd r => by_cases hc : c = sep <;> simp [hc]

theorem two_le_length_goSplitOn (sep : Char) :
    ∀ l : List Char, sep ∈ l → 2 ≤ (goSplitOn sep l).length := by
  intro l
  induction l with
  | nil => intro h; simp at h
  | cons c t ih =>
    intro hmem
    unfold goSplitOn
    cases h : goSplitOn sep t with
    | nil => exact absurd h (goSplitOn_ne_nil sep t)
    | cons hd r =>
      by_cases hc : c = sep
      · simp [hc]
      · have ht : sep ∈ t := by
          rcases List.mem_cons.mp hmem with h1 | h1
          · exact absurd h1.symm hc
          · exact h1
        have h2 := ih ht
        rw [h] at h2
        simp only [List.length_cons] at h2
        simp only [if_neg hc, List.length_cons]
        omega

theorem foldl_skip_eq_filterMap {α β : Type} (f : α → Option β) :
    ∀ (l : List α) (acc : List β),
      l.foldl (skipFold f) acc = acc ++ l.filterMap f := by
  intro l
  induction l with
  | nil => intro acc; simp
  | cons x t ih =>
    intro acc
    simp only [List.foldl_cons, List.filterMap_cons]
    cases h : f x with
    | none => simpa [skipFold, h] using ih acc
    | some s => simpa [skipFold, h] using ih (acc ++ [s])

theorem length_filterMap_eq_length_filter {α β : Type} (f : α → Option β) (p : α → Bool) :
    ∀ l : List α, (∀ x ∈ l, (f x).isSome = p x) →
      (l.filterMap f).length = (l.filter p).length := by
  intro l
  induction l with
  | nil => intro _; simp
  | cons x t ih =>
    intro h
    have hx := h x (by simp)
    have ht : ∀ y ∈ t, (f y).isSome = p y := fun y hy => h y (by simp [hy])
    cases hf : f x with
    | none =>
      have hx' : p x = false := by rw [hf] at hx; exact hx.symm
      simp [List.filterMap_cons, List.filter_cons, hf, hx', ih ht]
    | some s =>
      have hx' : p x = true := by rw [hf] at hx; exact hx.symm
      simp [List.filterMap_cons, List.filter_cons, hf, hx', ih ht]

/-- C6: for every set of hwmon temperature channels, the scan produces exactly
one sample per channel whose raw value parses as an integer (in channel
order), channels whose value is unreadable or does not parse are silently
absent, and no malformed channel aborts the loop or drops a sibling's sample:
the result is the `filterMap` of the per-channel processing, whose hits are
exactly the valid channels.  The hypothesis records that every file name
matched by the glob `temp*_input` contains an underscore, which is what makes
the `len(parts) < 2` guard pass. -/
theorem c6_scan_skips_malformed (nameFile : Option String) (hwmonBase : String)
    (channels : List HwmonChannel)
    (hglob : ∀ ch ∈ channels, '_' ∈ ch.base.data) :
    readHwmonDevice nameFile hwmonBase channels
      = channels.filterMap (processChannel (resolveDeviceName nameFile) hwmonBase) ∧
    (∀ ch ∈ channels,
      (processChannel (resolveDeviceName nameFile) hwmonBase ch).isSome = channelValid ch) ∧
    (readHwmonDevice nameFile hwmonBase channels).length
      = (channels.filter channelValid).length := by
  have heq : readHwmonDevice nameFile hwmonBase channels
      = channels.filterMap (processChannel (resolveDeviceName nameFile) hwmonBase) := by
    unfold readHwmonDevice
    simpa using foldl_skip_eq_filterMap
      (processChannel (resolveDeviceName nameFile) hwmonBase) channels []
  have hvalid : ∀ ch ∈ channels,
      (processChannel (resolveDeviceName nameFile) hwmonBase ch).isSome = channelValid ch := by
    intro ch hch
    obtain ⟨base, raw, label⟩ := ch
    have hlen := two_le_length_goSplitOn '_' base.data (hglob ⟨base, raw, label⟩ hch)
    have hn : ¬ ((goSplitOn '_' base.data).length < 2) := by omega
    cases raw with
    | none => simp [processChannel, channelValid, hn]
    | some data =>
      cases hp : goParseInt64 (goTrimSpace data) with
      | none => simp [processChannel, channelValid, hn, hp]
      | some v => simp [processChannel, channelValid, hn, hp]
  refine ⟨heq, hvalid, ?_⟩
  rw [heq]
  exact length_filterMap_eq_length_filter _ _ channels hvalid

/-- Concrete channel set for the C6 witness: a valid channel, a channel whose
value does not parse, and an unreadable channel. -/
def c6Channels : List HwmonChannel :=
  [ { base := "temp1_input", raw := some "45000\n", label := some "Package id 0" }
  , { base := "temp2_input", raw := some " 4x5 ", label := none }
  , { base := "temp3_input", raw := none, label := some "gpu mem" } ]

theorem c6_scan_skips_malformed_witness :
    (readHwmonDevice (some "coretemp\n") "hwmon0" c6Channels).length
      = (c6Channels.filter channelValid).length :=
  (c6_scan_skips_malformed (some "coretemp\n") "hwmon0" c6Channels (by decide)).2.2

/-! ### Poll-cycle filtering (`collectAndSendTemperatures`, client.go lines 126-195) -/

/-- The per-type enable flags of the agent configuration (`MonitoringConfig`
in config.go). -/
structure MonitoringConfig where
  cpu : Bool
  gpu : Bool
  disk : Bool
deriving DecidableEq, Repr

/-- One reading of the submission RPC (`TemperatureReading` on the wire):
Go `float64` temperature modelled as `ℚ`, the protobuf timestamp as `Nat`. -/
structure WireReading where
  sensorId : String
  clientId : String
  temperatureCelsius : ℚ
  timestamp : Nat
  sensorType : String
  sensorName : String
deriving DecidableEq, Repr

/-- The `switch sensor.Type` of the filter loop: CPU/GPU/DISK follow their
configuration flags, every other type is included by default. -/
def includeSensor (cfg : MonitoringConfig) (s : TemperatureSensor) : Bool :=
  if s.type = "CPU" then cfg.cpu
  else if s.type = "GPU" then cfg.gpu
  else if s.type = "DISK" then cfg.disk
  else true

/-- The filter loop of `collectAndSendTemperatures`: append each included
sensor to the filtered slice. -/
def filterSensors (cfg : MonitoringConfig) (sensors : List TemperatureSensor) :
    List TemperatureSensor :=
  sensors.foldl (fun acc s => if includeSensor cfg s then acc ++ [s] else acc) []

/-- Conversion of a filtered sample to a wire reading, all readings of one
cycle sharing the timestamp captured at batch-assembly time. -/
def toWireReading (clientId : String) (now : Nat) (s : TemperatureSensor) : WireReading :=
  { sensorId := s.id
  , clientId := clientId
  , temperatureCelsius := (s.tempMilliC : ℚ) / 1000
  , timestamp := now
  , sensorType := s.type
  , sensorName := s.name }

/-- Observable outcome of one poll cycle: the two logged no-op paths (both
return a nil error in the Go code) and the submission of a batch. -/
inductive CycleAction where
  | noSensors
  | nothingToReport
  | submitBatch (readings : List WireReading)
deriving DecidableEq, Repr

/-- The decision logic of `collectAndSendTemperatures` after a successful
scan: empty scan and empty filtered set are no-ops (nil error), otherwise the
filtered samples are converted and submitted as one batch. -/
def collectAndSendTemperatures (cfg : MonitoringConfig) (clientId : String)
    (sensors : List TemperatureSensor) (now : Nat) : CycleAction :=
  if sensors.length = 0 then .noSensors
  else
    let filtered := filterSensors cfg sensors
    if filtered.length = 0 then .nothingToReport
    else .submitBatch (filtered.map (toWireReading clientId now))

theorem filterSensors_eq_filter (cfg : MonitoringConfig) :
    ∀ (sensors : List TemperatureSensor) (acc : List TemperatureSensor),
      sensors.foldl (fun acc s => if includeSensor cfg s then acc ++ [s] else acc) acc
        = acc ++ sensors.filter (includeSensor cfg) := by
  intro sensors
  induction sensors with
  | nil => intro acc; simp
  | cons x t ih =>
    intro acc
    simp only [List.foldl_cons, List.filter_cons]
    by_cases h : includeSensor cfg x <;> simp [h, ih]

/-- C7: the poller's filtered batch contains a sample of type CPU, GPU or
DISK iff the corresponding configuration flag is enabled, always contains
every sample of any other type, and when the filtered set is empty the cycle
submits nothing (the Go code returns a nil error on both no-op paths). -/
theorem c7_poller_filter_policy (cfg : MonitoringConfig) (sensors : List TemperatureSensor) :
    (∀ s, s.type = "CPU" →
      (s ∈ filterSensors cfg sensors ↔ s ∈ sensors ∧ cfg.cpu = true)) ∧
    (∀ s, s.type = "GPU" →
      (s ∈ filterSensors cfg sensors ↔ s ∈ sensors ∧ cfg.gpu = true)) ∧
    (∀ s, s.type = "DISK" →
      (s ∈ filterSensors cfg sensors ↔ s ∈ sensors ∧ cfg.disk = true)) ∧
    (∀ s, s.type ≠ "CPU" → s.type ≠ "GPU" → s.type ≠ "DISK" →
      (s ∈ filterSensors cfg sensors ↔ s ∈ sensors)) ∧
    (∀ clientId now, filterSensors cfg sensors = [] →
      ∀ rs, collectAndSendTemperatures cfg clientId sensors now ≠ CycleAction.submitBatch rs) := by
  have hf : filterSensors cfg sensors = sensors.filter (includeSensor cfg) := by
    unfold filterSensors
    simpa using filterSensors_eq_filter cfg sensors []
  refine ⟨?_, ?_, ?_, ?_, ?_⟩
  · intro s hs
    rw [hf, List.mem_filter]
    simp [includeSensor, hs]
  · intro s hs
    rw [hf, List.mem_filter]
    simp [includeSensor, hs]
  · intro s hs
    rw [hf, List.mem_filter]
    simp [includeSensor, hs]
  · intro s h1 h2 h3
    rw [hf, List.mem_filter]
    simp [includeSensor, h1, h2, h3]
  · intro clientId now hempty rs
    by_cases hs : sensors.length = 0 <;>
      simp [collectAndSendTemperatures, hs, hempty]

/-- Configuration with every flag disabled, for the C7 witness. -/
def c7Cfg : MonitoringConfig := { cpu := false, gpu := false, disk := false }

/-- A single CPU sample, filtered out under `c7Cfg`. -/
def c7Sensors : List TemperatureSensor :=
  [{ id := "hwmon0_1", type := "CPU", name := "Package id 0", tempMilliC := 45000 }]

theorem c7_poller_filter_policy_witness :
    collectAndSendTemperatures c7Cfg "host1" c7Sensors 7 ≠ CycleAction.submitBatch [] :=
  (c7_poller_filter_policy c7Cfg c7Sensors).2.2.2.2 "host1" 7 (by decide) []

/-! ### Server data model (models/temperature.go) and batch ingestion
(`TemperatureService.SubmitTemperature`).

The `Client` row carries the `FirstSeen`/`IsOnline` fields referenced by the
service code (`client.FirstSeen`, `last_seen`/`is_online` updates,
`client_service.go`); Go's zero `time.Time` is modelled as `0`.  GORM's
`FirstOrCreate` loads the matching row if one exists (filling in its primary
key) and otherwise inserts the struct literal, after which the struct's `ID`
holds the fresh non-zero key. -/

/-- A `clients` row. -/
structure ClientRec where
  id : Nat
  clientId : String
  firstSeen : Nat
  lastSeen : Nat
  isOnline : Bool
deriving DecidableEq, Repr

/-- A `sensors` row. -/
structure SensorRec where
  id : Nat
  sensorId : String
  clientId : String
  sensorType : String
  sensorName : String
deriving DecidableEq, Repr

/-- A `temperature_readings` row. -/
structure ReadingRec where
  id : Nat
  sensorId : String
  clientId : String
  temperatureCelsius : ℚ
  sensorType : String
  sensorName : String
  createdAt : Nat
deriving DecidableEq, Repr

/-- The persistent store written by the ingestion transaction. -/
structure DBState where
  clients : List ClientRec
  sensors : List SensorRec
  readings : List ReadingRec
deriving DecidableEq, Repr

/-- The gRPC status codes the service returns. -/
inductive GrpcCode where
  | invalidArgument
  | internal
deriving DecidableEq, Repr

/-- The `Updates(map{last_seen, is_online})` call: set both mutable fields on
every row with the given primary key. -/
def updateClientRow (clients : List ClientRec) (rid : Nat) (now : Nat) : List ClientRec :=
  clients.map (fun c => if c.id = rid then { c with lastSeen := now, isOnline := true } else c)

/-- The client upsert of one loop iteration of `SubmitTemperature`:
`FirstOrCreate` on `client_id`, then — because the struct's `ID` is non-zero
both for a loaded and for a freshly created row — the unconditional
`last_seen`/`is_online` update.  The `else` branch (the in-memory
`client.FirstSeen = now` assignment for a zero `ID`) never touches the store,
so a created row keeps the zero `FirstSeen` of the struct literal. -/
def clientsAfterSubmit (clients : List ClientRec) (now : Nat) (cid : String) : List ClientRec :=
  match clients.find? (fun c => c.clientId == cid) with
  | some c0 =>
    if c0.id ≠ 0 then updateClientRow clients c0.id now else clients
  | none =>
    let newc : ClientRec :=
      { id := clients.length + 1, clientId := cid, firstSeen := 0, lastSeen := now, isOnline := true }
    let clients1 := clients ++ [newc]
    if newc.id ≠ 0 then updateClientRow clients1 newc.id now else clients1

/-- The sensor upsert of one loop iteration: a bare `FirstOrCreate` on
`sensor_id` — an existing row is loaded and left untouched, a missing row is
inserted with the incoming field values. -/
def sensorsAfterSubmit (sensors : List SensorRec) (r : WireReading) : List SensorRec :=
  match sensors.find? (fun x => x.sensorId == r.sensorId) with
  | some _ => sensors
  | none =>
    sensors ++ [{ id := sensors.length + 1, sensorId := r.sensorId, clientId := r.clientId
                , sensorType := r.sensorType, sensorName := r.sensorName }]

/-- One iteration of the `SubmitTemperature` transaction loop: client upsert,
sensor upsert, and the appended reading row carrying the agent-supplied
timestamp.  `now` is the server receipt time (`time.Now()`). -/
def submitOne (st : DBState) (now : Nat) (r : WireReading) : DBState :=
  { clients := clientsAfterSubmit st.clients now r.clientId
  , sensors := sensorsAfterSubmit st.sensors r
  , readings := st.readings ++
      [{ id := st.readings.length + 1, sensorId := r.sensorId, clientId := r.clientId
       , temperatureCelsius := r.temperatureCelsius, sensorType := r.sensorType
       , sensorName := r.sensorName, createdAt := r.timestamp }] }

/-- The body of the ingestion transaction: process the readings in order. -/
def submitBatchState (st : DBState) (now : Nat) (readings : List WireReading) : DBState :=
  readings.foldl (fun s r => submitOne s now r) st

/-- `SubmitTemperature`: an empty batch is rejected with `InvalidArgument`
before the transaction is opened; otherwise the whole batch commits and the
success response is returned. -/
def submitTemperature (st : DBState) (now : Nat) (readings : List WireReading) :
    Except GrpcCode (Bool × String) × DBState :=
  if readings.length = 0 then (.error .invalidArgument, st)
  else (.ok (true, "Temperature readings saved successfully"), submitBatchState st now readings)

/-- The `first_seen` column of the (first) row for a host identity. -/
def lookupFirstSeen (st : DBState) (h : String) : Option Nat :=
  (st.clients.find? (fun c => c.clientId == h)).map (fun c => c.firstSeen)

/-- The `last_seen` column of the (first) row for a host identity. -/
def lookupLastSeen (st : DBState) (h : String) : Option Nat :=
  (st.clients.find? (fun c => c.clientId == h)).map (fun c => c.lastSeen)

/-- Well-formedness of the `clients` table as the auto-increment key leaves
it: keys are positive and no larger than the row count. -/
def ClientsWF (clients : List ClientRec) : Prop :=
  ∀ c ∈ clients, 0 < c.id ∧ c.id ≤ clients.length

theorem find?_append_of_none {α : Type} (p : α → Bool) :
    ∀ (l₁ l₂ : List α), l₁.find? p = none → (l₁ ++ l₂).find? p = l₂.find? p := by
  intro l₁
  induction l₁ with
  | nil => intro l₂ _; simp
  | cons a t ih =>
    intro l₂ h
    by_cases hp : p a
    · rw [List.find?_cons_of_pos t hp] at h
      exact absurd h (by simp)
    · rw [List.find?_cons_of_neg t hp] at h
      rw [List.cons_append, List.find?_cons_of_neg (t ++ l₂) hp]
      exact ih l₂ h

theorem find?_append_of_some {α : Type} (p : α → Bool) :
    ∀ (l₁ l₂ : List α) (a : α), l₁.find? p = some a → (l₁ ++ l₂).find? p = some a := by
  intro l₁
  induction l₁ with
  | nil => intro l₂ a h; simp at h
  | cons x t ih =>
    intro l₂ a h
    by_cases hp : p x
    · rw [List.find?_cons_of_pos t hp] at h
      rw [List.cons_append, List.find?_cons_of_pos (t ++ l₂) hp]
      exact h
    · rw [List.find?_cons_of_neg t hp] at h
      rw [List.cons_append, List.find?_cons_of_neg (t ++ l₂) hp]
      exact ih l₂ a h

theorem find?_updateClientRow (clients : List ClientRec) (rid now : Nat) (h : String) :
    (updateClientRow clients rid now).find? (fun c => c.clientId == h)
      = (clients.find? (fun c => c.clientId == h)).map
          (fun c => if c.id = rid then { c with lastSeen := now, isOnline := true } else c) := by
  unfold updateClientRow
  rw [List.find?_map]
  have hq : ((fun c : ClientRec => c.clientId == h) ∘
      (fun c => if c.id = rid then { c with lastSeen := now, isOnline := true } else c))
      = (fun c : ClientRec => c.clientId == h) := by
    funext c
    by_cases hc : c.id = rid <;> simp [Function.comp, hc]
  rw [hq]

theorem clientsAfterSubmit_lastSeen (clients : List ClientRec) (now : Nat) (cid : String)
    (hwf : ClientsWF clients) :
    ((clientsAfterSubmit clients now cid).find? (fun c => c.clientId == cid)).map
      (fun c => c.lastSeen) = some now := by
  unfold clientsAfterSubmit
  cases hf : clients.find? (fun c => c.clientId == cid) with
  | some c0 =>
    dsimp only
    have hmem := List.mem_of_find?_eq_some hf
    have hid : c0.id ≠ 0 := by have := (hwf c0 hmem).1; omega
    rw [if_pos hid, find?_updateClientRow, hf]
    simp
  | none =>
    dsimp only
    rw [if_pos (by omega : clients.length + 1 ≠ 0), find?_updateClientRow,
      find?_append_of_none _ _ _ hf, List.find?_cons_of_pos _ (by simp)]
    simp

theorem clientsAfterSubmit_firstSeen (clients : List ClientRec) (now : Nat) (cid : String)
    (h : String) :
    ((clientsAfterSubmit clients now cid).find? (fun c => c.clientId == h)).map
        (fun c => c.firstSeen)
      = (clients.find? (fun c => c.clientId == h)).map (fun c => c.firstSeen)
    ∨ (clients.find? (fun c => c.clientId == h) = none ∧ cid = h ∧
        ((clientsAfterSubmit clients now cid).find? (fun c => c.clientId == h)).map
          (fun c => c.firstSeen) = some 0) := by
  unfold clientsAfterSubmit
  cases hf : clients.find? (fun c => c.clientId == cid) with
  | some c0 =>
    dsimp only
    left
    by_cases hid : c0.id ≠ 0
    · rw [if_pos hid, find?_updateClientRow]
      cases hq : clients.find? (fun c => c.clientId == h) with
      | some c1 => simp [Option.map_map]; by_cases hc : c1.id = c0.id <;> simp [hc]
      | none => simp
    · rw [if_neg hid]
  | none =>
    dsimp only
    by_cases hch : cid = h
    · subst hch
      right
      refine ⟨hf, rfl, ?_⟩
      rw [if_pos (by omega : clients.length + 1 ≠ 0), find?_updateClientRow,
        find?_append_of_none _ _ _ hf, List.find?_cons_of_pos _ (by simp)]
      simp
    · left
      rw [if_pos (by omega : clients.length + 1 ≠ 0), find?_updateClientRow]
      cases hq : clients.find? (fun c => c.clientId == h) with
      | some c1 =>
        rw [find?_append_of_some _ _ _ _ hq]
        simp [Option.map_map]
        by_cases hc : c1.id = clients.length + 1 <;> simp [hc]
      | none =>
        rw [find?_append_of_none _ _ _ hq, List.find?_cons_of_neg _ (by simp [hch])]
        simp

theorem clientsAfterSubmit_firstSeen_isSome (clients : List ClientRec) (now : Nat)
    (cid : String) :
    (((clientsAfterSubmit clients now cid).find? (fun c => c.clientId == cid)).map
      (fun c => c.firstSeen)).isSome = true := by
  unfold clientsAfterSubmit
  cases hf : clients.find? (fun c => c.clientId == cid) with
  | some c0 =>
    dsimp only
    by_cases hid : c0.id ≠ 0
    · rw [if_pos hid, find?_updateClientRow, hf]; simp
    · rw [if_neg hid, hf]; simp
  | none =>
    dsimp only
    rw [if_pos (by omega : clients.length + 1 ≠ 0), find?_updateClientRow,
      find?_append_of_none _ _ _ hf, List.find?_cons_of_pos _ (by simp)]
    simp

theorem updateClientRow_WFaux (clients : List ClientRec) (rid now : Nat)
    (hwf : ClientsWF clients) : ClientsWF (updateClientRow clients rid now) := by
  intro c' hc'
  rcases List.mem_map.mp hc' with ⟨c, hc, rfl⟩
  have := hwf c hc
  unfold updateClientRow
  rw [List.length_map]
  by_cases hcc : c.id = rid <;> simp [hcc] <;> omega

theorem clientsAfterSubmit_WF (clients : List ClientRec) (now : Nat) (cid : String)
    (hwf : ClientsWF clients) : ClientsWF (clientsAfterSubmit clients now cid) := by
  unfold clientsAfterSubmit
  cases hf : clients.find? (fun c => c.clientId == cid) with
  | some c0 =>
    dsimp only
    by_cases hid : c0.id ≠ 0
    · rw [if_pos hid]; exact updateClientRow_WFaux clients c0.id now hwf
    · rw [if_neg hid]; exact hwf
  | none =>
    dsimp only
    rw [if_pos (by omega : clients.length + 1 ≠ 0)]
    apply updateClientRow_WFaux
    intro c hc
    rcases List.mem_append.mp hc with hc | hc
    · have := hwf c hc
      simp only [List.length_append, List.length_cons, List.length_nil]
      omega
    · simp only [List.mem_singleton] at hc
      subst hc
      simp only [List.length_append, List.length_cons, List.length_nil]
      omega

theorem clientsAfterSubmit_bounds (clients : List ClientRec) (now : Nat) (cid : String)
    (hb : ∀ c ∈ clients, c.firstSeen ≤ c.lastSeen ∧ c.firstSeen ≤ now) :
    ∀ c ∈ clientsAfterSubmit clients now cid, c.firstSeen ≤ c.lastSeen ∧ c.firstSeen ≤ now := by
  have hupd : ∀ (l : List ClientRec) (rid : Nat),
      (∀ c ∈ l, c.firstSeen ≤ c.lastSeen ∧ c.firstSeen ≤ now) →
      ∀ c ∈ updateClientRow l rid now, c.firstSeen ≤ c.lastSeen ∧ c.firstSeen ≤ now := by
    intro l rid hl c' hc'
    rcases List.mem_map.mp hc' with ⟨c, hc, rfl⟩
    have := hl c hc
    by_cases hcc : c.id = rid <;> simp [hcc] <;> omega
  unfold clientsAfterSubmit
  cases hf : clients.find? (fun c => c.clientId == cid) with
  | some c0 =>
    dsimp only
    by_cases hid : c0.id ≠ 0
    · rw [if_pos hid]; exact hupd clients c0.id hb
    · rw [if_neg hid]; exact hb
  | none =>
    dsimp only
    rw [if_pos (by omega : clients.length + 1 ≠ 0)]
    apply hupd
    intro c hc
    rcases List.mem_append.mp hc with hc | hc
    · exact hb c hc
    · simp only [List.mem_singleton] at hc
      subst hc
      simp

theorem submitOne_lastSeen (st : DBState) (now : Nat) (r : WireReading)
    (hwf : ClientsWF st.clients) :
    lookupLastSeen (submitOne st now r) r.clientId = some now := by
  simp only [lookupLastSeen, submitOne]
  exact clientsAfterSubmit_lastSeen st.clients now r.clientId hwf

theorem submitOne_firstSeen (st : DBState) (now : Nat) (r : WireReading) (h : String) :
    lookupFirstSeen (submitOne st now r) h = lookupFirstSeen st h ∨
      (lookupFirstSeen st h = none ∧ r.clientId = h ∧
        lookupFirstSeen (submitOne st now r) h = some 0) := by
  simp only [lookupFirstSeen, submitOne]
  rcases clientsAfterSubmit_firstSeen st.clients now r.clientId h with h1 | ⟨h1, h2, h3⟩
  · left; exact h1
  · right; exact ⟨by rw [h1]; rfl, h2, h3⟩

theorem submitOne_firstSeen_isSome (st : DBState) (now : Nat) (r : WireReading) :
    (lookupFirstSeen (submitOne st now r) r.clientId).isSome = true := by
  simp only [lookupFirstSeen, submitOne]
  exact clientsAfterSubmit_firstSeen_isSome st.clients now r.clientId

theorem submitOne_WF (st : DBState) (now : Nat) (r : WireReading)
    (hwf : ClientsWF st.clients) : ClientsWF (submitOne st now r).clients :=
  clientsAfterSubmit_WF st.clients now r.clientId hwf

theorem submitOne_bounds (st : DBState) (now : Nat) (r : WireReading)
    (hb : ∀ c ∈ st.clients, c.firstSeen ≤ c.lastSeen ∧ c.firstSeen ≤ now) :
    ∀ c ∈ (submitOne st now r).clients, c.firstSeen ≤ c.lastSeen ∧ c.firstSeen ≤ now :=
  clientsAfterSubmit_bounds st.clients now r.clientId hb

theorem submitBatch_spec (now : Nat) (hostId : String) :
    ∀ (b : List WireReading) (st : DBState),
      ClientsWF st.clients →
      (∀ r ∈ b, r.clientId = hostId) →
      ClientsWF (submitBatchState st now b).clients ∧
      ((∀ c ∈ st.clients, c.firstSeen ≤ c.lastSeen ∧ c.firstSeen ≤ now) →
        ∀ c ∈ (submitBatchState st now b).clients,
          c.firstSeen ≤ c.lastSeen ∧ c.firstSeen ≤ now) ∧
      (∀ h, lookupFirstSeen (submitBatchState st now b) h = lookupFirstSeen st h ∨
        (lookupFirstSeen st h = none ∧
          lookupFirstSeen (submitBatchState st now b) h = some 0)) ∧
      (b ≠ [] → lookupLastSeen (submitBatchState st now b) hostId = some now ∧
        (lookupFirstSeen (submitBatchState st now b) hostId).isSome = true) := by
  intro b
  induction b with
  | nil =>
    intro st hwf _
    exact ⟨hwf, fun hb => hb, fun h => Or.inl rfl, fun hne => absurd rfl hne⟩
  | cons r t ih =>
    intro st hwf hall
    have hr : r.clientId = hostId := hall r (by simp)
    have hallt : ∀ x ∈ t, x.clientId = hostId := fun x hx => hall x (by simp [hx])
    have hwf1 : ClientsWF (submitOne st now r).clients := submitOne_WF st now r hwf
    obtain ⟨iwf, ibound, ifirst, ilast⟩ := ih (submitOne st now r) hwf1 hallt
    rw [show submitBatchState st now (r :: t)
      = submitBatchState (submitOne st now r) now t from rfl]
    refine ⟨iwf, ?_, ?_, ?_⟩
    · intro hb
      exact ibound (submitOne_bounds st now r hb)
    · intro h
      rcases ifirst h with h1 | ⟨h1, h2⟩
      · rcases submitOne_firstSeen st now r h with h3 | ⟨h3, _, h5⟩
        · left; rw [h1, h3]
        · right; exact ⟨h3, by rw [h1, h5]⟩
      · rcases submitOne_firstSeen st now r h with h3 | ⟨_, _, h5⟩
        · right; exact ⟨by rw [← h3]; exact h1, h2⟩
        · rw [h5] at h1; exact absurd h1 (by simp)
    · intro _
      cases t with
      | nil =>
        constructor
        · have := submitOne_lastSeen st now r hwf
          rw [hr] at this
          exact this
        · have := submitOne_firstSeen_isSome st now r
          rw [hr] at this
          exact this
      | cons r2 t2 =>
        exact ilast (by simp)

/-- C1: for every host identity, submitting two non-empty batches carrying
that `hostId` updates the host's `lastSeen` on each batch (to each batch's
receipt time) while the stored `firstSeen` is unchanged across the second
batch; `firstSeen` is written only by the first-ever insert (the `FirstOrCreate`
struct literal, whose `FirstSeen` is the zero time `0`, the in-memory
`client.FirstSeen = now` branch being unreachable for a successfully created
row) and is never overwritten afterwards; and `firstSeen ≤ lastSeen` holds in
every row after the submits. -/
theorem c1_host_upsert_idempotent
    (st : DBState) (hostId : String) (now₁ now₂ : Nat) (b1 b2 : List WireReading)
    (hwf : ClientsWF st.clients)
    (hinit : ∀ c ∈ st.clients, c.firstSeen ≤ c.lastSeen ∧ c.firstSeen ≤ now₁)
    (hnow : now₁ ≤ now₂)
    (hb1 : b1 ≠ []) (hb2 : b2 ≠ [])
    (hall1 : ∀ r ∈ b1, r.clientId = hostId)
    (hall2 : ∀ r ∈ b2, r.clientId = hostId) :
    lookupLastSeen (submitTemperature st now₁ b1).2 hostId = some now₁ ∧
    lookupLastSeen (submitTemperature (submitTemperature st now₁ b1).2 now₂ b2).2 hostId
      = some now₂ ∧
    lookupFirstSeen (submitTemperature (submitTemperature st now₁ b1).2 now₂ b2).2 hostId
      = lookupFirstSeen (submitTemperature st now₁ b1).2 hostId ∧
    (lookupFirstSeen st hostId = none →
      lookupFirstSeen (submitTemperature st now₁ b1).2 hostId = some 0) ∧
    (∀ c ∈ (submitTemperature (submitTemperature st now₁ b1).2 now₂ b2).2.clients,
      c.firstSeen ≤ c.lastSeen) := by
  have hlen1 : ¬(b1.length = 0) := by simpa [List.length_eq_zero] using hb1
  have hlen2 : ¬(b2.length = 0) := by simpa [List.length_eq_zero] using hb2
  have e1 : (submitTemperature st now₁ b1).2 = submitBatchState st now₁ b1 := by
    simp [submitTemperature, hlen1]
  have e2 : ∀ s : DBState, (submitTemperature s now₂ b2).2 = submitBatchState s now₂ b2 := by
    intro s; simp [submitTemperature, hlen2]
  rw [e1, e2]
  obtain ⟨wf1, bound1, first1, last1⟩ := submitBatch_spec now₁ hostId b1 st hwf hall1
  obtain ⟨hlast1, hfirst1some⟩ := last1 hb1
  have hbound1 : ∀ c ∈ (submitBatchState st now₁ b1).clients,
      c.firstSeen ≤ c.lastSeen ∧ c.firstSeen ≤ now₂ := by
    intro c hc
    have := bound1 hinit c hc
    exact ⟨this.1, this.2.trans hnow⟩
  obtain ⟨wf2, bound2, first2, last2⟩ :=
    submitBatch_spec now₂ hostId b2 (submitBatchState st now₁ b1) wf1 hall2
  refine ⟨hlast1, (last2 hb2).1, ?_, ?_, ?_⟩
  · rcases first2 hostId with h | ⟨h1, _⟩
    · exact h
    · rw [h1] at hfirst1some
      exact absurd hfirst1some (by simp)
  · intro hnone
    rcases first1 hostId with h | ⟨_, h2⟩
    · rw [h, hnone] at hfirst1some
      exact absurd hfirst1some (by simp)
    · exact h2
  · intro c hc
    exact (bound2 hbound1 c hc).1

/-- First batch of the C1 witness scenario. -/
def c1Reading1 : WireReading :=
  { sensorId := "hwmon0_1", clientId := "host1", temperatureCelsius := 55
  , timestamp := 11, sensorType := "CPU", sensorName := "Package" }

/-- Second batch of the C1 witness scenario. -/
def c1Reading2 : WireReading :=
  { sensorId := "hwmon0_1", clientId := "host1", temperatureCelsius := 61
  , timestamp := 12, sensorType := "CPU", sensorName := "Package" }

theorem c1_host_upsert_idempotent_witness :
    lookupLastSeen
      (submitTemperature (submitTemperature ⟨[], [], []⟩ 3 [c1Reading1]).2 5 [c1Reading2]).2
      "host1" = some 5 :=
  (c1_host_upsert_idempotent ⟨[], [], []⟩ "host1" 3 5 [c1Reading1] [c1Reading2]
    (fun c hc => absurd hc (List.not_mem_nil c))
    (fun c hc => absurd hc (List.not_mem_nil c))
    (by omega) (by simp) (by simp)
    (fun r hr => by rw [List.mem_singleton] at hr; subst hr; rfl)
    (fun r hr => by rw [List.mem_singleton] at hr; subst hr; rfl)).2.1

/-- C3: `submit()` called with an empty batch always fails with the
client-input-error kind (`InvalidArgument`), never succeeds, and never
reaches the persistence layer: the returned store is the input store,
unchanged (the guard runs before `db.Transaction` is entered). -/
theorem c3_empty_batch_rejected (st : DBState) (now : Nat) :
    submitTemperature st now [] = (Except.error GrpcCode.invalidArgument, st) := rfl

/-- First batch of the C4 scenario: creates the sensor row. -/
def c4Reading1 : WireReading :=
  { sensorId := "hwmon0_1", clientId := "host1", temperatureCelsius := 55
  , timestamp := 21, sensorType := "CPU", sensorName := "Package" }

/-- Second batch of the C4 scenario: same sensor, different type and name. -/
def c4Reading2 : WireReading :=
  { sensorId := "hwmon0_1", clientId := "host1", temperatureCelsius := 61
  , timestamp := 22, sensorType := "GPU", sensorName := "Renamed" }

/-- The stored type/name of sensor "hwmon0_1" after the two C4 batches. -/
def c4StoredTypeName : Option (String × String) :=
  ((submitTemperature (submitTemperature ⟨[], [], []⟩ 1 [c4Reading1]).2 2
      [c4Reading2]).2.sensors.find? (fun x => x.sensorId == "hwmon0_1")).map
    (fun x => (x.sensorType, x.sensorName))

/-- C4 counterexample: after two successful submits mentioning sensor
"hwmon0_1", the stored `Sensor` row still carries the FIRST batch's
type/name ("CPU"/"Package"), not the most recent batch's ("GPU"/"Renamed"):
`FirstOrCreate` loads an existing row and never overwrites it, so the claim's
last-write-wins behaviour does not hold. -/
theorem c4_counterexample :
    (submitTemperature (submitTemperature ⟨[], [], []⟩ 1 [c4Reading1]).2 2 [c4Reading2]).1
      = Except.ok (true, "Temperature readings saved successfully") ∧
    c4StoredTypeName = some ("CPU", "Package") ∧
    ¬ (c4StoredTypeName = some (c4Reading2.sensorType, c4Reading2.sensorName)) := by
  refine ⟨rfl, rfl, ?_⟩
  intro h
  have h2 : c4StoredTypeName = some ("CPU", "Package") := rfl
  rw [h2] at h
  simp [c4Reading2] at h

/-- C4 amended: the sensor upsert is first-write-wins, not last-write-wins.
A submitted batch never modifies an existing `Sensor` row: the stored rows
are extended only, and every appended row carries the type/name/client of a
reading in the batch (the first one mentioning a previously unknown
`sensorId`). -/
theorem c4_sensor_first_write_wins (st : DBState) (now : Nat) (b : List WireReading) :
    ∃ rest, (submitBatchState st now b).sensors = st.sensors ++ rest ∧
      ∀ x ∈ rest, ∃ r, r ∈ b ∧ x.sensorId = r.sensorId ∧ x.sensorType = r.sensorType ∧
        x.sensorName = r.sensorName ∧ x.clientId = r.clientId := by
  induction b generalizing st with
  | nil => exact ⟨[], by simp [submitBatchState], by simp⟩
  | cons r t ih =>
    obtain ⟨rest1, h1, h2⟩ := ih (submitOne st now r)
    have hsens : (submitOne st now r).sensors = st.sensors ∨
        (submitOne st now r).sensors = st.sensors ++
          [{ id := st.sensors.length + 1, sensorId := r.sensorId, clientId := r.clientId
           , sensorType := r.sensorType, sensorName := r.sensorName }] := by
      simp only [submitOne, sensorsAfterSubmit]
      cases hf : st.sensors.find? (fun x => x.sensorId == r.sensorId) with
      | some c => exact Or.inl rfl
      | none => exact Or.inr rfl
    have hstep : (submitBatchState st now (r :: t)).sensors
        = (submitBatchState (submitOne st now r) now t).sensors := rfl
    rcases hsens with hs | hs
    · refine ⟨rest1, ?_, ?_⟩
      · rw [hstep, h1, hs]
      · intro x hx
        obtain ⟨r', hr', hprops⟩ := h2 x hx
        exact ⟨r', List.mem_cons_of_mem r hr', hprops⟩
    · refine ⟨{ id := st.sensors.length + 1, sensorId := r.sensorId, clientId := r.clientId
              , sensorType := r.sensorType, sensorName := r.sensorName } :: rest1, ?_, ?_⟩
      · rw [hstep, h1, hs]; simp
      · intro x hx
        rcases List.mem_cons.mp hx with rfl | hx
        · exact ⟨r, List.mem_cons_self r t, rfl, rfl, rfl, rfl⟩
        · obtain ⟨r', hr', hprops⟩ := h2 x hx
          exact ⟨r', List.mem_cons_of_mem r hr', hprops⟩

theorem c4_sensor_first_write_wins_witness :
    ∃ rest, (submitBatchState ⟨[], [], []⟩ 2 [c4Reading2]).sensors = [] ++ rest ∧
      ∀ x ∈ rest, ∃ r, r ∈ [c4Reading2] ∧ x.sensorId = r.sensorId ∧
        x.sensorType = r.sensorType ∧ x.sensorName = r.sensorName ∧
        x.clientId = r.clientId :=
  c4_sensor_first_write_wins ⟨[], [], []⟩ 2 [c4Reading2]

/-! ### Latest reading per sensor (`GetCurrentTemperatures`) -/

/-- Maximum of a list of naturals (SQL `MAX` over a non-empty group). -/
def natMaxList : List Nat → Nat
  | [] => 0
  | a :: t => max a (natMaxList t)

/-- The grouped subquery `SELECT sensor_id, MAX(created_at) ... WHERE
client_id = c GROUP BY sensor_id`, looked up at one sensor: `none` when the
group is empty (no such row in the join), otherwise the group's maximum
`created_at`. -/
def maxCreatedForSensor (db : List ReadingRec) (c s : String) : Option Nat :=
  let group := db.filter (fun r => r.clientId == c && r.sensorId == s)
  if group = [] then none
  else some (natMaxList (group.map (fun r => r.createdAt)))

/-- `GetCurrentTemperatures`: reject an empty `client_id` with
`InvalidArgument`; otherwise the inner join keeps every reading of the host
whose `created_at` equals its sensor's group maximum. -/
def getCurrentTemperatures (db : List ReadingRec) (clientId : String) :
    Except GrpcCode (List ReadingRec) :=
  if clientId = "" then .error .invalidArgument
  else .ok (db.filter (fun r =>
    r.clientId == clientId &&
      maxCreatedForSensor db clientId r.sensorId == some r.createdAt))

/-- The first half of the C2 claim, as a predicate: the query returns at most
one row per distinct `sensorId`. -/
def currentAtMostOnePerSensor (db : List ReadingRec) (c : String) : Prop :=
  ∀ res, getCurrentTemperatures db c = Except.ok res →
    ∀ s : String, (res.filter (fun r => r.sensorId == s)).length ≤ 1

/-- Two readings of the same host and sensor with identical timestamps. -/
def c2Db : List ReadingRec :=
  [ { id := 1, sensorId := "s1", clientId := "host1", temperatureCelsius := 20
    , sensorType := "CPU", sensorName := "a", createdAt := 5 }
  , { id := 2, sensorId := "s1", clientId := "host1", temperatureCelsius := 21
    , sensorType := "CPU", sensorName := "a", createdAt := 5 } ]

/-- C2 counterexample: on a store holding two readings for sensor "s1" of
host "host1" with the same `created_at`, the group-max inner join returns
BOTH tied rows, so `GetCurrentTemperatures` returns two rows for one
`sensorId` and the claimed at-most-one-row-per-sensor bound is false. -/
theorem c2_counterexample : ¬ currentAtMostOnePerSensor c2Db "host1" := by
  intro hclaim
  have h := hclaim c2Db rfl "s1"
  have h2 : (c2Db.filter (fun r => r.sensorId == "s1")).length = 2 := rfl
  omega

theorem le_natMaxList (l : List Nat) : ∀ x ∈ l, x ≤ natMaxList l := by
  induction l with
  | nil => intro x hx; simp at hx
  | cons a t ih =>
    intro x hx
    rcases List.mem_cons.mp hx with rfl | hx
    · exact le_max_left _ _
    · exact (ih x hx).trans (le_max_right _ _)

theorem length_le_one_of_all_eq_of_nodup (l : List Nat)
    (hall : ∀ x ∈ l, ∀ y ∈ l, x = y) (hnd : l.Nodup) : l.length ≤ 1 := by
  cases l with
  | nil => simp
  | cons a t =>
    cases t with
    | nil => simp
    | cons b t2 =>
      have hab : a = b := hall a (by simp) b (by simp)
      rw [List.nodup_cons] at hnd
      exact absurd (hab ▸ List.mem_cons_self b t2) hnd.1

theorem maxCreatedForSensor_ub (db : List ReadingRec) (c s : String)
    (r' : ReadingRec) (hr' : r' ∈ db) (hc' : r'.clientId = c) (hs : r'.sensorId = s) :
    ∀ m, maxCreatedForSensor db c s = some m → r'.createdAt ≤ m := by
  intro m hm
  unfold maxCreatedForSensor at hm
  have hmem : r' ∈ db.filter (fun r => r.clientId == c && r.sensorId == s) :=
    List.mem_filter.mpr ⟨hr', by simp [hc', hs]⟩
  rw [if_neg (List.ne_nil_of_mem hmem)] at hm
  have hm' := (Option.some_inj.mp hm).symm
  rw [hm']
  exact le_natMaxList _ _ (List.mem_map_of_mem (fun r => r.createdAt) hmem)

/-- C2 amended: `GetCurrentTemperatures` returns, for each sensor of the
host, exactly the stored rows whose `observedAt` equals that sensor's
maximum — so every returned row's `observedAt` is ≥ every other stored
reading for that sensor, all returned rows of one sensor tie at the maximum,
and the at-most-one-row-per-sensor bound holds exactly when no two stored
readings of that sensor share a timestamp (ties return ALL tied rows, not
any one of them). -/
theorem c2_latest_per_sensor (db : List ReadingRec) (c : String) (res : List ReadingRec)
    (hc : c ≠ "") (hres : getCurrentTemperatures db c = Except.ok res) :
    (∀ r ∈ res, r.clientId = c ∧
      (∀ r' ∈ db, r'.clientId = c → r'.sensorId = r.sensorId →
        r'.createdAt ≤ r.createdAt)) ∧
    (∀ r ∈ res, ∀ r2 ∈ res, r.sensorId = r2.sensorId → r.createdAt = r2.createdAt) ∧
    (∀ s : String,
      ((db.filter (fun r => r.clientId == c && r.sensorId == s)).map
        (fun r => r.createdAt)).Nodup →
      (res.filter (fun r => r.sensorId == s)).length ≤ 1) := by
  unfold getCurrentTemperatures at hres
  rw [if_neg hc] at hres
  have hres' : res = db.filter (fun r =>
      r.clientId == c && maxCreatedForSensor db c r.sensorId == some r.createdAt) :=
    (Except.ok.injEq _ _ ▸ hres : _ = _).symm
  have hmemres : ∀ r ∈ res, r ∈ db ∧ r.clientId = c ∧
      maxCreatedForSensor db c r.sensorId = some r.createdAt := by
    intro r hr
    rw [hres'] at hr
    obtain ⟨hdb, hp⟩ := List.mem_filter.mp hr
    simp only [Bool.and_eq_true, beq_iff_eq] at hp
    exact ⟨hdb, hp.1, hp.2⟩
  have part1 : ∀ r ∈ res, r.clientId = c ∧
      (∀ r' ∈ db, r'.clientId = c → r'.sensorId = r.sensorId →
        r'.createdAt ≤ r.createdAt) := by
    intro r hr
    obtain ⟨_, hcid, hmax⟩ := hmemres r hr
    refine ⟨hcid, fun r' hr' hc' hs => ?_⟩
    exact maxCreatedForSensor_ub db c r.sensorId r' hr' hc' hs r.createdAt hmax
  have part2 : ∀ r ∈ res, ∀ r2 ∈ res, r.sensorId = r2.sensorId →
      r.createdAt = r2.createdAt := by
    intro r hr r2 hr2 hs
    obtain ⟨_, _, hmax⟩ := hmemres r hr
    obtain ⟨_, _, hmax2⟩ := hmemres r2 hr2
    rw [hs] at hmax
    rw [hmax] at hmax2
    exact Option.some_inj.mp hmax2
  refine ⟨part1, part2, ?_⟩
  intro s hnd
  have hsub : List.Sublist (res.filter (fun r => r.sensorId == s))
      (db.filter (fun r => r.clientId == c && r.sensorId == s)) := by
    rw [hres', List.filter_filter]
    apply List.monotone_filter_right
    intro r hp
    simp only [Bool.and_eq_true, beq_iff_eq] at hp ⊢
    exact ⟨hp.2.1, hp.1⟩
  have hndres : ((res.filter (fun r => r.sensorId == s)).map
      (fun r => r.createdAt)).Nodup :=
    List.Nodup.sublist (List.Sublist.map _ hsub) hnd
  have hlen : ((res.filter (fun r => r.sensorId == s)).map
      (fun r => r.createdAt)).length ≤ 1 := by
    apply length_le_one_of_all_eq_of_nodup _ _ hndres
    intro x hx y hy
    obtain ⟨r, hrf, rfl⟩ := List.mem_map.mp hx
    obtain ⟨r2, hr2f, rfl⟩ := List.mem_map.mp hy
    obtain ⟨hrres, hrs⟩ := List.mem_filter.mp hrf
    obtain ⟨hr2res, hr2s⟩ := List.mem_filter.mp hr2f
    simp only [beq_iff_eq] at hrs hr2s
    exact part2 r hrres r2 hr2res (by rw [hrs, hr2s])
  simpa using hlen

theorem c2_latest_per_sensor_witness :
    ((c2Db.filter (fun r => r.sensorId == "zz")).length ≤ 1) :=
  (c2_latest_per_sensor c2Db "host1" c2Db (by decide) rfl).2.2 "zz" (by decide)

/-- C10: `GetCurrentTemperatures` with an empty `client_id` always fails with
`InvalidArgument` and returns no readings; with any non-empty `client_id` the
guard passes and the query succeeds. -/
theorem c10_current_requires_client (db : List ReadingRec) :
    getCurrentTemperatures db "" = Except.error GrpcCode.invalidArgument ∧
    ∀ c : String, c ≠ "" → ∃ res, getCurrentTemperatures db c = Except.ok res := by
  constructor
  · rfl
  · intro c hc
    simp only [getCurrentTemperatures, if_neg hc]
    exact ⟨_, rfl⟩

theorem c10_current_requires_client_witness :
    ∃ res, getCurrentTemperatures c2Db "host1" = Except.ok res :=
  (c10_current_requires_client c2Db).2 "host1" (by decide)

/-! ### History query (`GetTemperatureHistory`) -/

/-- The request of the history RPC; the proto string fields default to `""`
(absent) and `limit` is the (possibly absent, hence `0`) int32 field. -/
structure HistoryReq where
  clientId : String
  sensorId : String
  startTime : Option Nat
  endTime : Option Nat
  limit : Int
deriving DecidableEq, Repr

/-- The optional `WHERE` filters of `GetTemperatureHistory`, combined by
logical AND; an absent filter means "all". -/
def historyPred (req : HistoryReq) (r : ReadingRec) : Bool :=
  (req.clientId == "" || r.clientId == req.clientId) &&
  (req.sensorId == "" || r.sensorId == req.sensorId) &&
  (match req.startTime with | none => true | some t => decide (t ≤ r.createdAt)) &&
  (match req.endTime with | none => true | some t => decide (r.createdAt ≤ t))

/-- The server-side limit clamp: `if limit <= 0 || limit > 1000 { limit = 100 }`. -/
def effectiveLimit (l : Int) : Nat :=
  if l ≤ 0 ∨ 1000 < l then 100 else l.toNat

/-- `ORDER BY created_at DESC`. -/
def sortByCreatedDesc (rows : List ReadingRec) : List ReadingRec :=
  List.insertionSort (fun a b => b.createdAt ≤ a.createdAt) rows

/-- The rows returned by `GetTemperatureHistory`: filter, sort descending by
`created_at`, and apply the clamped limit. -/
def historyRows (db : List ReadingRec) (req : HistoryReq) : List ReadingRec :=
  (sortByCreatedDesc (db.filter (historyPred req))).take (effectiveLimit req.limit)

/-- `GetTemperatureHistory` (persistence errors aside, the query always
succeeds). -/
def getTemperatureHistory (db : List ReadingRec) (req : HistoryReq) :
    Except GrpcCode (List ReadingRec) :=
  .ok (historyRows db req)

instance : IsTotal ReadingRec (fun a b => b.createdAt ≤ a.createdAt) :=
  ⟨fun a b => le_total b.createdAt a.createdAt⟩

instance : IsTrans ReadingRec (fun a b => b.createdAt ≤ a.createdAt) :=
  ⟨fun _ _ _ hab hbc => le_trans hbc hab⟩

/-- C9: the requested history limit is clamped server-side to `(0, 1000]`
with default 100 — the effective limit always lies in `(0, 1000]`, a missing
or non-positive limit and a limit above 1000 both yield 100, an in-range
limit is used as-is — and the result is ordered by `observedAt` descending
with at most that many readings. -/
theorem c9_history_limit_clamped (db : List ReadingRec) (req : HistoryReq) :
    (0 < effectiveLimit req.limit ∧ effectiveLimit req.limit ≤ 1000) ∧
    (req.limit ≤ 0 → effectiveLimit req.limit = 100) ∧
    (1000 < req.limit → effectiveLimit req.limit = 100) ∧
    (0 < req.limit → req.limit ≤ 1000 → (effectiveLimit req.limit : Int) = req.limit) ∧
    getTemperatureHistory db req = Except.ok (historyRows db req) ∧
    (historyRows db req).length ≤ effectiveLimit req.limit ∧
    List.Sorted (fun a b => b.createdAt ≤ a.createdAt) (historyRows db req) := by
  have hb : 0 < effectiveLimit req.limit ∧ effectiveLimit req.limit ≤ 1000 := by
    by_cases h : req.limit ≤ 0 ∨ 1000 < req.limit
    · rw [effectiveLimit, if_pos h]; omega
    · rw [effectiveLimit, if_neg h]; push_neg at h; omega
  refine ⟨hb, ?_, ?_, ?_, rfl, ?_, ?_⟩
  · intro h
    rw [effectiveLimit, if_pos (Or.inl h)]
  · intro h
    rw [effectiveLimit, if_pos (Or.inr h)]
  · intro h1 h2
    rw [effectiveLimit, if_neg (by omega)]
    omega
  · rw [historyRows, List.length_take]
    exact min_le_left _ _
  · have hsorted := List.sorted_insertionSort
      (fun a b : ReadingRec => b.createdAt ≤ a.createdAt) (db.filter (historyPred req))
    exact List.Pairwise.sublist (List.take_sublist _ _) hsorted

theorem c9_history_limit_clamped_witness : effectiveLimit 5000 = 100 :=
  (c9_history_limit_clamped []
    { clientId := "", sensorId := "", startTime := none, endTime := none
    , limit := 5000 }).2.2.1 (by decide)

/-! ### Stats query (`GetTemperatureStats`)

`baseQuery` is a chained `*gorm.DB`: after `s.db.Model(...)` every further
`Where`/`Distinct` call mutates the same statement.  The per-sensor loop
therefore appends its `sensor_id = ?` condition to the SHARED query on every
iteration, so iteration `i` filters on all of `sensor_id = s₁ … sᵢ` at once.
`statsLoop` carries that accumulated condition list explicitly. -/

/-- The request of the stats RPC. -/
structure StatsReq where
  clientId : String
  sensorId : String
  startTime : Option Nat
  endTime : Option Nat
deriving DecidableEq, Repr

/-- The host and time-range filters applied to `baseQuery` before the loop. -/
def statsBasePred (req : StatsReq) (r : ReadingRec) : Bool :=
  (req.clientId == "" || r.clientId == req.clientId) &&
  (match req.startTime with | none => true | some t => decide (t ≤ r.createdAt)) &&
  (match req.endTime with | none => true | some t => decide (r.createdAt ≤ t))

/-- The scanned aggregate row `{avg, min, max, count}`. -/
structure TemperatureStats where
  minTemperature : ℚ
  maxTemperature : ℚ
  avgTemperature : ℚ
  readingCount : Int
deriving DecidableEq, Repr

/-- `SELECT AVG, MIN, MAX, COUNT(*)` over a row set; over an empty set the
SQL aggregates are `NULL` and scanning leaves the zero values, `COUNT` is 0. -/
def aggregateStats (rows : List ReadingRec) : TemperatureStats :=
  match rows with
  | [] => { minTemperature := 0, maxTemperature := 0, avgTemperature := 0, readingCount := 0 }
  | r0 :: _ =>
    let temps := rows.map (fun r => r.temperatureCelsius)
    { minTemperature := temps.foldl min r0.temperatureCelsius
    , maxTemperature := temps.foldl max r0.temperatureCelsius
    , avgTemperature := (temps.foldl (fun a b => a + b) 0) / (rows.length : ℚ)
    , readingCount := rows.length }

/-- `SELECT DISTINCT sensor_id ... Pluck`: the distinct sensor ids of the
filtered set, in order of first occurrence. -/
def firstDistinctAux (seen : List String) : List String → List String
  | [] => []
  | a :: t => if a ∈ seen then firstDistinctAux seen t else a :: firstDistinctAux (a :: seen) t

/-- The per-sensor loop of `GetTemperatureStats`.  `conds` is the list of
`sensor_id = ?` conditions already accumulated on the shared `baseQuery`;
each iteration appends its own sensor before running the aggregate query. -/
def statsLoop (base : List ReadingRec) (conds : List String) :
    List String → List (String × TemperatureStats)
  | [] => []
  | s :: rest =>
    let conds2 := conds ++ [s]
    let rows := base.filter (fun r => conds2.all (fun c2 => r.sensorId == c2))
    (s, aggregateStats rows) :: statsLoop base conds2 rest

/-- `GetTemperatureStats`: apply the base filters, choose the sensor-id list
(the requested one, or all distinct ids in the filtered set), then run the
condition-accumulating loop. -/
def getTemperatureStats (db : List ReadingRec) (req : StatsReq) :
    List (String × TemperatureStats) :=
  let base := db.filter (statsBasePred req)
  let sensorIds :=
    if req.sensorId == "" then firstDistinctAux [] (base.map (fun r => r.sensorId))
    else [req.sensorId]
  statsLoop base [] sensorIds

/-- A store with one reading each for two distinct sensors of one host. -/
def c8Db : List ReadingRec :=
  [ { id := 1, sensorId := "s1", clientId := "host1", temperatureCelsius := 10
    , sensorType := "CPU", sensorName := "a", createdAt := 1 }
  , { id := 2, sensorId := "s2", clientId := "host1", temperatureCelsius := 20
    , sensorType := "CPU", sensorName := "b", createdAt := 2 } ]

/-- The C8 stats request: host filter only, no sensor filter. -/
def c8Req : StatsReq :=
  { clientId := "host1", sensorId := "", startTime := none, endTime := none }

/-- C8, evaluated at the failing input: with two sensors in the window, the
second sensor's aggregate row is `{0, 0, 0, count 0}` — its query ran under
the accumulated contradictory condition `sensor_id = "s1" AND sensor_id =
"s2"` — although the window contains exactly one reading for "s2", whose
per-sensor aggregate (the second conjunct, what the claim specifies) is
`{20, 20, 20, count 1}`. -/
theorem c8_stats_condition_pollution :
    getTemperatureStats c8Db c8Req
      = [ ("s1", { minTemperature := 10, maxTemperature := 10
                 , avgTemperature := 10, readingCount := 1 })
        , ("s2", { minTemperature := 0, maxTemperature := 0
                 , avgTemperature := 0, readingCount := 0 }) ] ∧
    aggregateStats ((c8Db.filter (statsBasePred c8Req)).filter (fun r => r.sensorId == "s2"))
      = { minTemperature := 20, maxTemperature := 20
        , avgTemperature := 20, readingCount := 1 } := by
  refine ⟨?_, ?_⟩ <;>
    simp [getTemperatureStats, c8Db, c8Req, statsBasePred, firstDistinctAux,
      statsLoop, aggregateStats, List.filter_cons, List.filter_nil, List.map_cons,
      List.map_nil, List.foldl_cons, List.foldl_nil, List.all_cons, List.all_nil]

end Jacuzzi
